import Mathlib

/-!
The `sql.Scanner` / `driver.Valuer` codecs of Money, Amount and Currency in go-money:
a shallow embedding of `src/db.go`.

* A Go `interface{}` scalar is a value of `Scalar`, one constructor per dynamic type.
* A Go `string` is a Lean `String`.  Go scans strings byte by byte; the only bytes the code
  looks at (space, sign, digits, letters) are ASCII, and in UTF-8 every byte of a non-ASCII
  character is `≥ 0x80`, so scanning by character agrees with scanning by byte.
* Machine integers are `Int`; conversions to `int64` and `uint64` arithmetic are explicit
  reductions modulo `2^64`.
* A method with a pointer receiver `func (t *T) Scan(src) error` is a function
  `T → Scalar → T × Option ScanError`: the receiver before the call, the receiver after the
  call and the returned error (`none` is `nil`).
* An error built by `fmt.Errorf` is the call site together with the arguments the format
  string consumes.
-/

namespace GoMoney

/-! ## Scalars -/

/-- A value of Go type `interface{}` as handed to `Scan`: the dynamic type and the value.
`float64` carries its IEEE-754 bit pattern, `bytes` the elements of a `[]byte`. -/
inductive Scalar where
  | str (x : String)
  | int64 (x : Int)
  | int32 (x : Int)
  | int (x : Int)
  | int16 (x : Int)
  | int8 (x : Int)
  | float64 (bits : Nat)
  | bool (b : Bool)
  | bytes (b : List Nat)
  | null
  deriving DecidableEq, Repr

/-- The name `fmt` prints for the dynamic type of a scalar under the verb `%T`. -/
def Scalar.typeName : Scalar → String
  | .str _ => "string"
  | .int64 _ => "int64"
  | .int32 _ => "int32"
  | .int _ => "int"
  | .int16 _ => "int16"
  | .int8 _ => "int8"
  | .float64 _ => "float64"
  | .bool _ => "bool"
  | .bytes _ => "[]uint8"
  | .null => "<nil>"

/-- The Go conversion `int64(x)` of an integer value: reduction into `[-2^63, 2^63)`. -/
def toInt64 (x : Int) : Int := (x + 2 ^ 63) % 2 ^ 64 - 2 ^ 63

/-- The value `x` fits a signed integer type of `w` bits. -/
def fitsInt (w : Nat) (x : Int) : Prop := -(2 : Int) ^ (w - 1) ≤ x ∧ x < (2 : Int) ^ (w - 1)

instance (w : Nat) (x : Int) : Decidable (fitsInt w x) := by
  unfold fitsInt; exact inferInstance

/-! ## `strconv.ParseInt(x, 10, 64)` and `strings.Split(x, " ")` (Go standard library) -/

/-- The two sentinel errors of `strconv`: `ErrSyntax` and `ErrRange`. -/
inductive NumErr where
  | ErrSyntax
  | ErrRange
  deriving DecidableEq, Repr

/-- The error `*strconv.NumError`: the failing function, the input and the cause. -/
structure NumError where
  Func : String
  Num : String
  Err : NumErr
  deriving DecidableEq, Repr

/-- The helper `lower(c)` of `strconv`: `c | ('x' - 'X')`. -/
def lower (c : Nat) : Nat := c ||| 0x20

/-- The loop of `strconv.ParseUint` at `base = 10`, `bitSize = 64` (so `base0` is false,
`cutoff = maxUint64/10 + 1` and `maxVal = 1<<64 - 1`), on the remaining characters with the
accumulator `n`.  The result is the returned `uint64` and the cause of the error, if any. -/
def parseUintLoop : List Char → Nat → Nat × Option NumErr
  | [], n => (n, none)
  | c :: cs, n =>
    let cutoff : Nat := (2 ^ 64 - 1) / 10 + 1
    let maxVal : Nat := 2 ^ 64 - 1
    let b := c.toNat
    -- switch: '_' needs base0; '0'..'9'; 'a'..'z' after lower; default is a syntax error
    let d? : Option Nat :=
      if 48 ≤ b ∧ b ≤ 57 then some (b - 48)
      else if 97 ≤ lower b ∧ lower b ≤ 122 then some (lower b - 97 + 10)
      else none
    match d? with
    | none => (0, some .ErrSyntax)
    | some d =>
      if d ≥ 10 then (0, some .ErrSyntax)
      else if n ≥ cutoff then (maxVal, some .ErrRange)
      else
        let n10 := (n * 10) % 2 ^ 64
        let n1 := (n10 + d) % 2 ^ 64
        if n1 < n10 ∨ n1 > maxVal then (maxVal, some .ErrRange)
        else parseUintLoop cs n1

/-- The function `strconv.ParseUint(s, 10, 64)`, `s` given by its characters. -/
def ParseUint (s : List Char) : Nat × Option NumErr :=
  if s = [] then (0, some .ErrSyntax) else parseUintLoop s 0

/-- The part of `strconv.ParseInt(s0, 10, 64)` after the leading sign has been picked off:
`neg` says whether the sign was `-`, `s` is what is left of `s0`. -/
def parseIntBody (s0 : String) (neg : Bool) (s : List Char) : Int × Option NumError :=
  -- convert unsigned and check range
  match ParseUint s with
  | (_, some .ErrSyntax) => (0, some ⟨"ParseInt", s0, .ErrSyntax⟩)
  | (un, _) =>
    let cutoff : Nat := 2 ^ 63
    if !neg ∧ un ≥ cutoff then ((cutoff : Int) - 1, some ⟨"ParseInt", s0, .ErrRange⟩)
    else if neg ∧ un > cutoff then (-(cutoff : Int), some ⟨"ParseInt", s0, .ErrRange⟩)
    else
      let n := toInt64 un
      (if neg then toInt64 (-n) else n, none)

/-- The function `strconv.ParseInt(s0, 10, 64)`: the returned `int64` and the error. -/
def ParseInt (s0 : String) : Int × Option NumError :=
  match s0.data with
  | [] => (0, some ⟨"ParseInt", s0, .ErrSyntax⟩)
  | c :: rest =>
    -- pick off leading sign
    if c = '+' then parseIntBody s0 false rest
    else if c = '-' then parseIntBody s0 true rest
    else parseIntBody s0 false (c :: rest)

/-- Splitting a character sequence around each occurrence of `sep`. -/
def splitChars (sep : Char) : List Char → List (List Char)
  | [] => [[]]
  | c :: cs =>
    if c = sep then [] :: splitChars sep cs
    else
      match splitChars sep cs with
      | [] => [[c]]
      | p :: ps => (c :: p) :: ps

/-- The call `strings.Split(x, " ")`: the substrings of `x` between the spaces. -/
def Split (x : String) : List String := (splitChars ' ' x.data).map String.mk

/-! ## The data model -/

/-- The type `Amount`: `val int64`, a count of minor units. -/
structure Amount where
  val : Int
  deriving DecidableEq, Repr

/-- Modelled from the spec: the declaration of `Currency` is not in `db.go`, which uses only
its field `Code`.  A Currency is its `Code` and the registry metadata, of a type `μ` left
open. -/
structure Currency (μ : Type) where
  Code : String
  info : μ
  deriving DecidableEq, Repr

/-- The zero value `Currency{}`: the empty code, and the zero value of the metadata. -/
def Currency.zero {μ : Type} [Inhabited μ] : Currency μ := ⟨"", default⟩

/-- The type `Money`: the two pointer fields `amount *Amount` and `currency *Currency`;
`none` is the nil pointer, `some v` a pointer to a value `v` that the Money owns. -/
structure Money (μ : Type) where
  amount : Option Amount
  currency : Option (Currency μ)
  deriving DecidableEq, Repr

/-- The currency registry `GetCurrency(code) *Currency` of the package, which `db.go` only
calls: `none` is the nil pointer. -/
abbrev Registry (μ : Type) := String → Option (Currency μ)

/-- Modelled from the spec: the table behind `GetCurrency` is not in `db.go`.  The spec has
the registry map a currency code to the Currency that this code identifies (a Currency is
"identified by a `Code`", the registry maps "currency codes to Currency metadata"): the
entry found under a key carries that key as its `Code`. -/
def keyedByCode {μ : Type} (GetCurrency : Registry μ) : Prop :=
  ∀ (k : String) (cur : Currency μ), GetCurrency k = some cur → cur.Code = k

/-! ## Errors -/

/-- The errors `db.go` builds, one constructor per `fmt.Errorf` format string, carrying what
the format string consumes: the value for `%#v`, the type name for `%T`, the error for `%v`
(or the `*strconv.NumError` that `ParseInt` returned). -/
inductive ScanError where
  /-- Line 22: `"%#v is not valid to scan into Money"`, the string `x`. -/
  | moneyMalformed (x : String)
  /-- Line 25: `"scanning %#v into a Currency: %v"`, `parts[0]` and the error. -/
  | moneyCurrency (part : String) (err : ScanError)
  /-- Lines 28 and 32: `"scanning %#v into an Amount: %v"`, `parts[1]` or `x`, and the error. -/
  | moneyAmount (part : Scalar) (err : ScanError)
  /-- Line 35: `"don't know how to scan %T into Money"`, the type of `src`. -/
  | moneyUnsupported (T : String)
  /-- Line 59: `"failed to parse %#v as int: %v"`, `src` (a string) and the parse error. -/
  | amountParse (src : String) (err : NumError)
  /-- Line 70: `"%T is not a supported type for an Amount"`, the type of `src`. -/
  | amountUnsupported (T : String)
  /-- Line 92: `"%T is not a supported type for a Currency (...)"`, the type of `src`. -/
  | currencyUnsupported (T : String)
  /-- Line 96: `"getCurrency(%#v) returned nil"`, `src` (a string). -/
  | currencyNil (src : String)
  deriving DecidableEq, Repr

/-! ## `db.go` -/

/-- The method `func (a Amount) Value() (driver.Value, error)`. -/
def Amount.Value (a : Amount) : Scalar × Option ScanError :=
  (.int64 a.val, none)

/-- The method `func (a *Amount) Scan(src interface{}) error`. -/
def Amount.Scan (a : Amount) (src : Scalar) : Amount × Option ScanError :=
  let aa : Amount := ⟨0⟩
  match src with
  | .str x =>
    match ParseInt x with
    | (_, some err) => (a, some (.amountParse x err))
    | (i, none) => (({ aa with val := i } : Amount), none)
  | .int64 x => (({ aa with val := x } : Amount), none)
  | .int32 x => (({ aa with val := toInt64 x } : Amount), none)
  | .int x => (({ aa with val := toInt64 x } : Amount), none)
  | _ => (a, some (.amountUnsupported src.typeName))

/-- The method `func (c Currency) Value() (driver.Value, error)`. -/
def Currency.Value {μ : Type} (c : Currency μ) : Scalar × Option ScanError :=
  (.str c.Code, none)

/-- The method `func (c *Currency) Scan(src interface{}) error`. -/
def Currency.Scan {μ : Type} (GetCurrency : Registry μ) (c : Currency μ) (src : Scalar) :
    Currency μ × Option ScanError :=
  match src with
  | .str x =>
    match GetCurrency x with
    | none => (c, some (.currencyNil x))
    | some val => (val, none)
  | _ => (c, some (.currencyUnsupported src.typeName))

/-- The method `func (m *Money) Scan(src interface{}) error`. -/
def Money.Scan {μ : Type} [Inhabited μ] (GetCurrency : Registry μ) (m : Money μ)
    (src : Scalar) : Money μ × Option ScanError :=
  let amount : Amount := ⟨0⟩
  let currency : Currency μ := Currency.zero
  match src with
  | .str x =>
    let parts := Split x
    if parts.length ≠ 2 ∨ parts.getD 0 "" = "" ∨ parts.getD 1 "" = "" then
      (m, some (.moneyMalformed x))
    else
      match Currency.Scan GetCurrency currency (.str (parts.getD 0 "")) with
      | (_, some err) => (m, some (.moneyCurrency (parts.getD 0 "") err))
      | (currency, none) =>
        match Amount.Scan amount (.str (parts.getD 1 "")) with
        | (_, some err) => (m, some (.moneyAmount (.str (parts.getD 1 "")) err))
        | (amount, none) => (⟨some amount, some currency⟩, none)
  | .int32 _ | .int64 _ =>
    match Amount.Scan amount src with
    | (_, some err) => (m, some (.moneyAmount src err))
    | (amount, none) => (⟨some amount, some currency⟩, none)
  | _ => (m, some (.moneyUnsupported src.typeName))

/-! ## Decimal literals, in the words of the specification -/

/-- The value of a run of decimal digits read from the left, starting from `n`. -/
def digitsValueFrom (n : Nat) (ds : List Char) : Nat :=
  ds.foldl (fun acc c => 10 * acc + (c.toNat - 48)) n

/-- One or more ASCII digits and nothing else. -/
def isDigitRun (ds : List Char) : Bool := !ds.isEmpty && ds.all Char.isDigit

/-- The spec's base-10 signed integer literal: an optional single leading `+` or `-`
followed by one or more ASCII digits, nothing else.  The result is the value of the literal,
`none` when the string is not such a literal. -/
def decimalLiteral (s : String) : Option Int :=
  match s.data with
  | [] => none
  | c :: rest =>
    if c = '+' then (if isDigitRun rest then some (digitsValueFrom 0 rest : Int) else none)
    else if c = '-' then (if isDigitRun rest then some (-(digitsValueFrom 0 rest : Int)) else none)
    else if isDigitRun (c :: rest) then some (digitsValueFrom 0 (c :: rest) : Int) else none

/-! ## Decimal rendering and error messages -/

/-- The canonical base-10 rendering of an integer, the string `strconv.FormatInt(v, 10)`
writes: a minus sign for a negative value, then the decimal digits of the absolute value,
most significant first, without leading zeros. -/
def FormatInt (v : Int) : String :=
  if v < 0 then "-" ++ Nat.repr v.natAbs else Nat.repr v.natAbs

/-- The method `(*strconv.NumError).Error()`:
`"strconv." + e.Func + ": parsing " + Quote(e.Num) + ": " + e.Err.Error()`.
The function `sharpV` is the rendering of a value by `fmt` under `%#v`, which on a string is
`strconv.Quote`; it belongs to the Go library and is left open. -/
def NumError.Error (sharpV : Scalar → String) (e : NumError) : String :=
  "strconv." ++ e.Func ++ ": parsing " ++ sharpV (.str e.Num) ++ ": " ++
    (match e.Err with
     | .ErrSyntax => "invalid syntax"
     | .ErrRange => "value out of range")

/-- The message of an error of `db.go`: the format string of its `fmt.Errorf` call with the
verbs filled in, `%#v` by `sharpV`, `%T` by the type name, `%v` by the message of the wrapped
error. -/
def ScanError.Error (sharpV : Scalar → String) : ScanError → String
  | .moneyMalformed x => sharpV (.str x) ++ " is not valid to scan into Money"
  | .moneyCurrency part err =>
    "scanning " ++ sharpV (.str part) ++ " into a Currency: " ++ err.Error sharpV
  | .moneyAmount part err =>
    "scanning " ++ sharpV part ++ " into an Amount: " ++ err.Error sharpV
  | .moneyUnsupported T => "don't know how to scan " ++ T ++ " into Money"
  | .amountParse src err =>
    "failed to parse " ++ sharpV (.str src) ++ " as int: " ++ err.Error sharpV
  | .amountUnsupported T => T ++ " is not a supported type for an Amount"
  | .currencyUnsupported T =>
    T ++ " is not a supported type for a Currency (store the Currency.Code value as a string only)"
  | .currencyNil src => "getCurrency(" ++ sharpV (.str src) ++ ") returned nil"

/-- The text `piece` occurs in the message `msg` as a contiguous run of characters. -/
def mentions (msg piece : String) : Prop := piece.data <:+: msg.data

instance (msg piece : String) : Decidable (mentions msg piece) := by
  unfold mentions; exact inferInstance

/-! ## Worked examples -/

/-- A registry for the worked examples: USD and EUR with two fraction digits, JPY with none. -/
def sampleRegistry : Registry Nat := fun code =>
  if code = "USD" then some ⟨"USD", 2⟩
  else if code = "EUR" then some ⟨"EUR", 2⟩
  else if code = "JPY" then some ⟨"JPY", 0⟩
  else none

/-- A target for the worked examples: twelve euros fifty. -/
def sampleMoney : Money Nat := ⟨some ⟨1250⟩, some ⟨"EUR", 2⟩⟩

/-- The test `strconv.IsPrint` on a rune up to U+00FF: `0x20..0x7E`, and `0xA1..0xFF`
without the soft hyphen `0xAD`.  A rune above U+00FF is taken as printable, which is what
`IsPrint` answers for the letters, marks, numbers, punctuation and symbols of Unicode. -/
def IsPrint (c : Char) : Bool :=
  let r := c.toNat
  if r ≤ 0xFF then
    if 0x20 ≤ r ∧ r ≤ 0x7E then true
    else if 0xA1 ≤ r ∧ r ≤ 0xFF then r != 0xAD
    else false
  else true

/-- The characters `strconv.Quote` writes for one rune (`appendEscapedRune` with the quote
`"`): a backslash before `"` and `\`, a printable rune as it is, the escapes `\a \b \f \n
\r \t \v`, `\x` and two hex digits for the other control characters below `0x20` and for
`0x7f`, `\u` and four hex digits for what is left (the runes `0x80..0xA0` and `0xAD`). -/
def quoteRune (c : Char) : List Char :=
  let r := c.toNat
  let bs : Char := Char.ofNat 92
  if r = 34 ∨ r = 92 then [bs, c]
  else if IsPrint c then [c]
  else if r = 7 then [bs, 'a']
  else if r = 8 then [bs, 'b']
  else if r = 12 then [bs, 'f']
  else if r = 10 then [bs, 'n']
  else if r = 13 then [bs, 'r']
  else if r = 9 then [bs, 't']
  else if r = 11 then [bs, 'v']
  else if r < 32 ∨ r = 127 then [bs, 'x', Nat.digitChar (r / 16 % 16), Nat.digitChar (r % 16)]
  else
    [bs, 'u', Nat.digitChar (r / 4096 % 16), Nat.digitChar (r / 256 % 16),
      Nat.digitChar (r / 16 % 16), Nat.digitChar (r % 16)]

/-- The function `strconv.Quote`: the string between double quotes, rune by rune through
`quoteRune`. -/
def Quote (s : String) : String :=
  String.mk (Char.ofNat 34 :: (s.data.flatMap quoteRune ++ [Char.ofNat 34]))

/-- The text `fmt` writes for one byte of a `[]byte` under `%#v`: `0x` and the hexadecimal
digits of the byte, lower case, no padding. -/
def byteSharpV (b : Nat) : String := "0x" ++ String.mk (Nat.toDigits 16 b)

/-- The renderer of the worked examples, `fmt` under `%#v`: a string through `Quote`, an
integer in base 10, a boolean as `true` or `false`, nil as `<nil>`, a byte slice as
`[]byte` and its bytes between braces.  The decimal text of a float is not modelled: a
`float64` is rendered by its type name; `db.go` never prints one under `%#v` (the verb is
applied to strings at lines 22, 25, 28, 59 and 96 and to an `int32` or `int64` at line 32). -/
def sampleSharpV : Scalar → String
  | .str x => Quote x
  | .int64 x => FormatInt x
  | .int32 x => FormatInt x
  | .int x => FormatInt x
  | .int16 x => FormatInt x
  | .int8 x => FormatInt x
  | .bool b => if b then "true" else "false"
  | .null => "<nil>"
  | .bytes b => "[]byte\x7b" ++ ", ".intercalate (b.map byteSharpV) ++ "\x7d"
  | .float64 _ => "float64"

/-! ## Lemmas on `strings.Split` -/

theorem splitChars_no_sep (sep : Char) (cs : List Char) (h : sep ∉ cs) :
    splitChars sep cs = [cs] := by
  induction cs with
  | nil => rfl
  | cons c cs ih =>
    have hc : c ≠ sep := fun e => h (e ▸ List.mem_cons_self _ _)
    have hcs : sep ∉ cs := fun e => h (List.mem_cons_of_mem _ e)
    simp [splitChars, hc, ih hcs]

theorem splitChars_append (sep : Char) (a b : List Char) (h : sep ∉ a) :
    splitChars sep (a ++ sep :: b) = a :: splitChars sep b := by
  induction a with
  | nil => simp [splitChars]
  | cons c cs ih =>
    have hc : c ≠ sep := fun e => h (e ▸ List.mem_cons_self _ _)
    have hcs : sep ∉ cs := fun e => h (List.mem_cons_of_mem _ e)
    simp [splitChars, hc, ih hcs]

/-- Two space-free tokens joined by one space split into exactly these two tokens. -/
theorem Split_two_tokens (c n : String) (hc : ' ' ∉ c.data) (hn : ' ' ∉ n.data) :
    Split (c ++ " " ++ n) = [c, n] := by
  have hd : (c ++ " " ++ n).data = c.data ++ ' ' :: n.data := by
    simp [String.data_append]
  simp [Split, hd, splitChars_append _ _ _ hc, splitChars_no_sep _ _ hn]

/-! ## Lemmas on the integer conversions -/

theorem toInt64_of_fits (x : Int) (h : fitsInt 64 x) : toInt64 x = x := by
  unfold fitsInt at h
  unfold toInt64
  norm_num at h ⊢
  omega

theorem fitsInt_mono {w : Nat} (x : Int) (hw : w ≤ 64) (h : fitsInt w x) : fitsInt 64 x := by
  unfold fitsInt at h ⊢
  have hp : (2 : Int) ^ (w - 1) ≤ 2 ^ (64 - 1) :=
    pow_le_pow_right₀ (by norm_num) (by omega)
  omega

/-! ## Lemmas on `strconv.ParseInt` -/

theorem isDigit_iff (c : Char) : c.isDigit = true ↔ 48 ≤ c.toNat ∧ c.toNat ≤ 57 := by
  simp only [Char.isDigit, Bool.and_eq_true, decide_eq_true_eq, Char.toNat]
  constructor
  · rintro ⟨h1, h2⟩
    exact ⟨h1, h2⟩
  · rintro ⟨h1, h2⟩
    exact ⟨h1, h2⟩

theorem parseUintLoop_not_digit (c : Char) (cs : List Char) (n : Nat)
    (h : ¬ c.isDigit = true) : parseUintLoop (c :: cs) n = (0, some .ErrSyntax) := by
  rw [isDigit_iff] at h
  by_cases hl : 97 ≤ lower c.toNat ∧ lower c.toNat ≤ 122
  · have hd : lower c.toNat - 97 + 10 ≥ 10 := by omega
    simp only [parseUintLoop, if_neg h, if_pos hl, if_pos hd]
  · simp only [parseUintLoop, if_neg h, if_neg hl]

theorem parseUintLoop_digit (c : Char) (cs : List Char) (n : Nat)
    (h : c.isDigit = true) (hn : n < 2 ^ 64) :
    parseUintLoop (c :: cs) n =
      if 10 * n + (c.toNat - 48) < 2 ^ 64 then parseUintLoop cs (10 * n + (c.toNat - 48))
      else (2 ^ 64 - 1, some .ErrRange) := by
  rw [isDigit_iff] at h
  have hd : ¬ (c.toNat - 48 ≥ 10) := by omega
  simp only [parseUintLoop, if_pos h, if_neg hd]
  norm_num at hn ⊢
  by_cases hc : 1844674407370955162 ≤ n
  · rw [if_pos hc, if_neg (by omega)]
  · rw [if_neg hc]
    have h10 : n * 10 % 18446744073709551616 = n * 10 := Nat.mod_eq_of_lt (by omega)
    rw [h10]
    by_cases hlt : 10 * n + (c.toNat - 48) < 18446744073709551616
    · have h1 : (n * 10 + (c.toNat - 48)) % 18446744073709551616 = 10 * n + (c.toNat - 48) := by
        rw [Nat.mod_eq_of_lt (by omega)]; omega
      rw [h1, if_pos hlt, if_neg (by omega)]
    · have h1 : (n * 10 + (c.toNat - 48)) % 18446744073709551616
          = n * 10 + (c.toNat - 48) - 18446744073709551616 := by
        rw [Nat.mod_eq_sub_mod (by omega), Nat.mod_eq_of_lt (by omega)]
      rw [h1, if_neg hlt, if_pos (by omega)]

theorem le_digitsValueFrom (ds : List Char) (n : Nat) : n ≤ digitsValueFrom n ds := by
  induction ds generalizing n with
  | nil => exact Nat.le_refl _
  | cons c cs ih =>
    have := ih (10 * n + (c.toNat - 48))
    simp only [digitsValueFrom, List.foldl_cons] at this ⊢
    omega

/-- On a run of digits the loop of `ParseUint` returns the value of the run when it is
below `2^64`, and `maxVal` with `ErrRange` otherwise. -/
theorem parseUintLoop_digits (ds : List Char) (n : Nat) (hn : n < 2 ^ 64)
    (hd : ∀ c ∈ ds, c.isDigit = true) :
    parseUintLoop ds n =
      if digitsValueFrom n ds < 2 ^ 64 then (digitsValueFrom n ds, none)
      else (2 ^ 64 - 1, some .ErrRange) := by
  induction ds generalizing n with
  | nil =>
    have h0 : digitsValueFrom n [] = n := rfl
    rw [h0, if_pos hn]
    rfl
  | cons c cs ih =>
    rw [parseUintLoop_digit c cs n (hd c (List.mem_cons_self _ _)) hn]
    have hstep : digitsValueFrom n (c :: cs) = digitsValueFrom (10 * n + (c.toNat - 48)) cs := rfl
    rw [hstep]
    by_cases hlt : 10 * n + (c.toNat - 48) < 2 ^ 64
    · rw [if_pos hlt, ih _ hlt (fun x hx => hd x (List.mem_cons_of_mem _ hx))]
    · rw [if_neg hlt, if_neg]
      have := le_digitsValueFrom cs (10 * n + (c.toNat - 48))
      omega

/-- On a run with a character that is not a digit the loop of `ParseUint` fails. -/
theorem parseUintLoop_bad (ds : List Char) (n : Nat) (hn : n < 2 ^ 64)
    (hd : ¬ ∀ c ∈ ds, c.isDigit = true) :
    parseUintLoop ds n = (0, some .ErrSyntax) ∨
      parseUintLoop ds n = (2 ^ 64 - 1, some .ErrRange) := by
  induction ds generalizing n with
  | nil => exact absurd (fun c hc => absurd hc (List.not_mem_nil c)) hd
  | cons c cs ih =>
    by_cases hc : c.isDigit = true
    · rw [parseUintLoop_digit c cs n hc hn]
      by_cases hlt : 10 * n + (c.toNat - 48) < 2 ^ 64
      · rw [if_pos hlt]
        apply ih _ hlt
        intro hall
        apply hd
        intro x hx
        rcases List.mem_cons.mp hx with rfl | hx
        · exact hc
        · exact hall x hx
      · rw [if_neg hlt]
        exact Or.inr rfl
    · exact Or.inl (parseUintLoop_not_digit c cs n hc)

theorem isDigitRun_iff (ds : List Char) :
    isDigitRun ds = true ↔ ds ≠ [] ∧ ∀ c ∈ ds, c.isDigit = true := by
  cases ds <;> simp [isDigitRun]

theorem ParseUint_digits (ds : List Char) (h : isDigitRun ds = true) :
    ParseUint ds =
      if digitsValueFrom 0 ds < 2 ^ 64 then (digitsValueFrom 0 ds, none)
      else (2 ^ 64 - 1, some .ErrRange) := by
  rw [isDigitRun_iff] at h
  rw [ParseUint, if_neg h.1]
  exact parseUintLoop_digits ds 0 (by norm_num) h.2

theorem ParseUint_bad (ds : List Char) (h : ¬ isDigitRun ds = true) :
    ParseUint ds = (0, some .ErrSyntax) ∨ ParseUint ds = (2 ^ 64 - 1, some .ErrRange) := by
  rw [isDigitRun_iff] at h
  by_cases hnil : ds = []
  · left; rw [ParseUint, if_pos hnil]
  · rw [ParseUint, if_neg hnil]
    exact parseUintLoop_bad ds 0 (by norm_num) (fun hall => h ⟨hnil, hall⟩)

theorem toInt64_neg_toInt64 (u : Nat) (h : u ≤ 2 ^ 63) :
    toInt64 (-(toInt64 (u : Int))) = -(u : Int) := by
  unfold toInt64
  norm_num at h ⊢
  omega

/-- The body of `ParseInt` without a minus sign, once `ParseUint` is no syntax error. -/
theorem parseIntBody_plus (s0 : String) (ds : List Char) (un : Nat) (e : Option NumErr)
    (hP : ParseUint ds = (un, e)) (he : e ≠ some .ErrSyntax) :
    parseIntBody s0 false ds =
      if un ≥ 2 ^ 63 then (((2 ^ 63 : Nat) : Int) - 1, some ⟨"ParseInt", s0, .ErrRange⟩)
      else (toInt64 un, none) := by
  rcases e with _ | _ | _
  · simp [parseIntBody, hP]
  · exact absurd rfl he
  · simp [parseIntBody, hP]

/-- The body of `ParseInt` after a minus sign, once `ParseUint` is no syntax error. -/
theorem parseIntBody_minus (s0 : String) (ds : List Char) (un : Nat) (e : Option NumErr)
    (hP : ParseUint ds = (un, e)) (he : e ≠ some .ErrSyntax) :
    parseIntBody s0 true ds =
      if un > 2 ^ 63 then (-((2 ^ 63 : Nat) : Int), some ⟨"ParseInt", s0, .ErrRange⟩)
      else (toInt64 (-(toInt64 un)), none) := by
  rcases e with _ | _ | _
  · simp [parseIntBody, hP]
  · exact absurd rfl he
  · simp [parseIntBody, hP]

/-- After the sign: a digit run whose signed value fits 64 bits parses to that value. -/
theorem parseIntBody_fits (s0 : String) (neg : Bool) (ds : List Char)
    (h : isDigitRun ds = true)
    (hfit : fitsInt 64 (if neg then -(digitsValueFrom 0 ds : Int) else digitsValueFrom 0 ds)) :
    parseIntBody s0 neg ds =
      (if neg then -(digitsValueFrom 0 ds : Int) else digitsValueFrom 0 ds, none) := by
  generalize hu : digitsValueFrom 0 ds = u at hfit
  have hP := ParseUint_digits ds h
  rw [hu] at hP
  have h63 : (2 : Nat) ^ 63 = 9223372036854775808 := by norm_num
  have h64 : (2 : Nat) ^ 64 = 18446744073709551616 := by norm_num
  unfold fitsInt at hfit
  cases neg
  · simp only [Bool.false_eq_true, if_false] at hfit ⊢
    norm_num at hfit
    rw [if_pos (by omega)] at hP
    rw [parseIntBody_plus s0 ds u none hP (by simp), if_neg (by omega)]
    rw [toInt64_of_fits (u : Int) (by unfold fitsInt; norm_num; omega)]
  · simp only [if_true] at hfit ⊢
    norm_num at hfit
    rw [if_pos (by omega)] at hP
    rw [parseIntBody_minus s0 ds u none hP (by simp), if_neg (by omega)]
    rw [toInt64_neg_toInt64 u (by omega)]

/-- After the sign: a digit run whose signed value does not fit 64 bits is a range error. -/
theorem parseIntBody_range (s0 : String) (neg : Bool) (ds : List Char)
    (h : isDigitRun ds = true)
    (hfit : ¬ fitsInt 64 (if neg then -(digitsValueFrom 0 ds : Int) else digitsValueFrom 0 ds)) :
    ∃ i, parseIntBody s0 neg ds = (i, some ⟨"ParseInt", s0, .ErrRange⟩) := by
  generalize hu : digitsValueFrom 0 ds = u at hfit
  have hP := ParseUint_digits ds h
  rw [hu] at hP
  have h63 : (2 : Nat) ^ 63 = 9223372036854775808 := by norm_num
  have h64 : (2 : Nat) ^ 64 = 18446744073709551616 := by norm_num
  unfold fitsInt at hfit
  cases neg
  · simp only [Bool.false_eq_true, if_false] at hfit
    norm_num at hfit
    by_cases hlt : u < 2 ^ 64
    · rw [if_pos hlt] at hP
      rw [parseIntBody_plus s0 ds u none hP (by simp), if_pos (by omega)]
      exact ⟨_, rfl⟩
    · rw [if_neg hlt] at hP
      rw [parseIntBody_plus s0 ds _ _ hP (by simp), if_pos (by omega)]
      exact ⟨_, rfl⟩
  · simp only [if_true] at hfit
    norm_num at hfit
    by_cases hlt : u < 2 ^ 64
    · rw [if_pos hlt] at hP
      rw [parseIntBody_minus s0 ds u none hP (by simp), if_pos (by omega)]
      exact ⟨_, rfl⟩
    · rw [if_neg hlt] at hP
      rw [parseIntBody_minus s0 ds _ _ hP (by simp), if_pos (by omega)]
      exact ⟨_, rfl⟩

/-- After the sign: anything but a digit run is an error. -/
theorem parseIntBody_bad (s0 : String) (neg : Bool) (ds : List Char)
    (h : ¬ isDigitRun ds = true) :
    ∃ i cause, parseIntBody s0 neg ds = (i, some ⟨"ParseInt", s0, cause⟩) := by
  have h63 : (2 : Nat) ^ 63 = 9223372036854775808 := by norm_num
  have h64 : (2 : Nat) ^ 64 = 18446744073709551616 := by norm_num
  rcases ParseUint_bad ds h with hP | hP
  · simp only [parseIntBody, hP]
    exact ⟨_, _, rfl⟩
  · cases neg
    · rw [parseIntBody_plus s0 ds _ _ hP (by simp), if_pos (by omega)]
      exact ⟨_, _, rfl⟩
    · rw [parseIntBody_minus s0 ds _ _ hP (by simp), if_pos (by omega)]
      exact ⟨_, _, rfl⟩

/-- After the sign, the body of `ParseInt` against the literal reading of the digits: either
the digits are a run whose signed value fits 64 bits and that value is returned without
error, or there is no such value and an error is returned. -/
theorem parseIntBody_spec (s0 : String) (neg : Bool) (ds : List Char) :
    (∃ v : Int,
        (if isDigitRun ds = true
          then some (if neg then -(digitsValueFrom 0 ds : Int) else digitsValueFrom 0 ds)
          else none) = some v ∧
        fitsInt 64 v ∧ parseIntBody s0 neg ds = (v, none)) ∨
    ((∀ v : Int,
        (if isDigitRun ds = true
          then some (if neg then -(digitsValueFrom 0 ds : Int) else digitsValueFrom 0 ds)
          else none) = some v → ¬ fitsInt 64 v) ∧
      ∃ i cause, parseIntBody s0 neg ds = (i, some ⟨"ParseInt", s0, cause⟩)) := by
  by_cases hrun : isDigitRun ds = true
  · rw [if_pos hrun]
    by_cases hfit :
        fitsInt 64 (if neg then -(digitsValueFrom 0 ds : Int) else digitsValueFrom 0 ds)
    · exact Or.inl ⟨_, rfl, hfit, parseIntBody_fits s0 neg ds hrun hfit⟩
    · right
      refine ⟨fun v hv => ?_, ?_⟩
      · rw [← Option.some.inj hv]; exact hfit
      · obtain ⟨i, hi⟩ := parseIntBody_range s0 neg ds hrun hfit
        exact ⟨i, _, hi⟩
  · rw [if_neg hrun]
    right
    exact ⟨fun v hv => (by cases hv), parseIntBody_bad s0 neg ds hrun⟩

/-- The function `strconv.ParseInt(s, 10, 64)` against the literal reading of `s`: either
`s` is a decimal literal whose value fits 64 bits and that value is returned without error,
or it is not and a `NumError` naming `ParseInt` and `s` is returned. -/
theorem ParseInt_spec (s : String) :
    (∃ v : Int, decimalLiteral s = some v ∧ fitsInt 64 v ∧ ParseInt s = (v, none)) ∨
    ((∀ v : Int, decimalLiteral s = some v → ¬ fitsInt 64 v) ∧
      ∃ i cause, ParseInt s = (i, some ⟨"ParseInt", s, cause⟩)) := by
  unfold decimalLiteral ParseInt
  rcases hdata : s.data with _ | ⟨c, rest⟩
  · right
    exact ⟨fun v hv => (by cases hv), ⟨0, .ErrSyntax, rfl⟩⟩
  · simp only
    by_cases hplus : c = '+'
    · simp only [if_pos hplus]
      simpa using parseIntBody_spec s false rest
    · by_cases hminus : c = '-'
      · simp only [if_neg hplus, if_pos hminus]
        simpa using parseIntBody_spec s true rest
      · simp only [if_neg hplus, if_neg hminus]
        simpa using parseIntBody_spec s false (c :: rest)

/-! ## Lemmas on the decimal rendering -/

theorem digitChar_spec (d : Nat) (h : d < 10) :
    (Nat.digitChar d).isDigit = true ∧ (Nat.digitChar d).toNat - 48 = d := by
  interval_cases d <;> decide

theorem digitsValueFrom_append (n : Nat) (a b : List Char) :
    digitsValueFrom n (a ++ b) = digitsValueFrom (digitsValueFrom n a) b := by
  simp only [digitsValueFrom, List.foldl_append]

/-- With enough fuel `Nat.toDigitsCore 10` puts in front of the accumulator a non-empty run
of digits whose value is the number rendered. -/
theorem toDigitsCore_run (fuel : Nat) : ∀ (n : Nat) (ds : List Char), n < fuel →
    ∃ front : List Char, Nat.toDigitsCore 10 fuel n ds = front ++ ds ∧ front ≠ [] ∧
      (∀ c ∈ front, c.isDigit = true) ∧ digitsValueFrom 0 front = n := by
  induction fuel with
  | zero => intro n ds h; omega
  | succ fuel ih =>
    intro n ds hn
    have hd := digitChar_spec (n % 10) (Nat.mod_lt _ (by norm_num))
    by_cases h0 : n / 10 = 0
    · refine ⟨[Nat.digitChar (n % 10)], ?_, by simp, ?_, ?_⟩
      · simp only [Nat.toDigitsCore, h0, if_true, List.singleton_append]
      · intro c hc
        rw [List.mem_singleton] at hc
        rw [hc]; exact hd.1
      · simp only [digitsValueFrom, List.foldl_cons, List.foldl_nil, hd.2]
        omega
    · obtain ⟨front, hcore, _, hdig, hval⟩ :=
        ih (n / 10) (Nat.digitChar (n % 10) :: ds) (by omega)
      refine ⟨front ++ [Nat.digitChar (n % 10)], ?_, by simp, ?_, ?_⟩
      · simp only [Nat.toDigitsCore, h0, if_false, hcore, List.append_assoc,
          List.singleton_append]
      · intro c hc
        rcases List.mem_append.mp hc with hc | hc
        · exact hdig c hc
        · rw [List.mem_singleton] at hc
          rw [hc]; exact hd.1
      · rw [digitsValueFrom_append, hval]
        simp only [digitsValueFrom, List.foldl_cons, List.foldl_nil, hd.2]
        omega

/-- The rendering `Nat.repr n` is a run of digits whose value is `n`. -/
theorem repr_run (n : Nat) :
    isDigitRun (Nat.repr n).data = true ∧ digitsValueFrom 0 (Nat.repr n).data = n := by
  obtain ⟨front, hcore, hne, hdig, hval⟩ := toDigitsCore_run (n + 1) n [] (by omega)
  have hdata : (Nat.repr n).data = front := by
    simp only [Nat.repr, Nat.toDigits, hcore, List.append_nil, List.asString]
  rw [hdata, isDigitRun_iff]
  exact ⟨⟨hne, hdig⟩, hval⟩

/-- Reading `FormatInt v` as a decimal literal gives back `v`. -/
theorem decimalLiteral_FormatInt (v : Int) : decimalLiteral (FormatInt v) = some v := by
  obtain ⟨hrun, hval⟩ := repr_run v.natAbs
  unfold FormatInt decimalLiteral
  by_cases hneg : v < 0
  · have hdata : ("-" ++ Nat.repr v.natAbs).data = '-' :: (Nat.repr v.natAbs).data := by
      simp [String.data_append]
    simp only [if_pos hneg, hdata]
    rw [if_neg (by decide), if_pos trivial, if_pos hrun, hval]
    congr 1
    omega
  · simp only [if_neg hneg]
    rcases hd : (Nat.repr v.natAbs).data with _ | ⟨c, rest⟩
    · rw [hd] at hrun; exact absurd hrun (by decide)
    · rw [hd] at hrun hval
      have hc : c.isDigit = true := ((isDigitRun_iff _).mp hrun).2 c (List.mem_cons_self _ _)
      have hplus : c ≠ '+' := by
        intro h; rw [h] at hc; exact absurd hc (by decide)
      have hminus : c ≠ '-' := by
        intro h; rw [h] at hc; exact absurd hc (by decide)
      simp only [if_neg hplus, if_neg hminus, if_pos hrun, hval]
      congr 1
      omega

/-- The rendering `FormatInt v` is not empty and has no space in it. -/
theorem FormatInt_token (v : Int) : FormatInt v ≠ "" ∧ ' ' ∉ (FormatInt v).data := by
  obtain ⟨hrun, _⟩ := repr_run v.natAbs
  rw [isDigitRun_iff] at hrun
  have hsp : ' ' ∉ (Nat.repr v.natAbs).data := by
    intro h
    exact absurd (hrun.2 ' ' h) (by decide)
  unfold FormatInt
  by_cases hneg : v < 0
  · have hdata : ("-" ++ Nat.repr v.natAbs).data = '-' :: (Nat.repr v.natAbs).data := by
      simp [String.data_append]
    rw [if_pos hneg]
    refine ⟨fun h => ?_, ?_⟩
    · have := congrArg String.data h
      rw [hdata] at this
      cases this
    · rw [hdata]
      intro h
      rcases List.mem_cons.mp h with h | h
      · exact absurd h (by decide)
      · exact hsp h
  · rw [if_neg hneg]
    refine ⟨fun h => ?_, hsp⟩
    exact hrun.1 (congrArg String.data h)

/-- The function `ParseInt` reads the rendering of a 64-bit `v` back as `v`. -/
theorem ParseInt_FormatInt (v : Int) (h : fitsInt 64 v) :
    ParseInt (FormatInt v) = (v, none) := by
  rcases ParseInt_spec (FormatInt v) with ⟨v0, hlit, _, hP⟩ | ⟨hno, _⟩
  · rw [decimalLiteral_FormatInt] at hlit
    rw [hP, ← Option.some.inj hlit]
  · exact absurd h (hno v (decimalLiteral_FormatInt v))

/-! ## Lemmas on messages -/

theorem mentions_of_data (msg piece : String) (pre suf : List Char)
    (h : msg.data = pre ++ (piece.data ++ suf)) : mentions msg piece := by
  unfold mentions
  rw [h]
  exact List.infix_append' pre piece.data suf

/-! ## Lemmas on the string path of `Money.Scan` -/

/-- The guard of line 21 fires exactly when the split is not two non-empty parts. -/
theorem malformed_guard_iff (parts : List String) :
    (parts.length ≠ 2 ∨ parts.getD 0 "" = "" ∨ parts.getD 1 "" = "") ↔
      (parts.length ≠ 2 ∨ "" ∈ parts) := by
  by_cases hlen : parts.length = 2
  · obtain ⟨p0, p1, rfl⟩ := List.length_eq_two.mp hlen
    simp only [List.getD_cons_zero, List.getD_cons_succ, List.mem_cons, List.mem_singleton,
      List.mem_nil_iff, or_false]
    constructor
    · rintro (h | h | h)
      · exact Or.inl h
      · exact Or.inr (Or.inl h.symm)
      · exact Or.inr (Or.inr h.symm)
    · rintro (h | h | h)
      · exact Or.inl h
      · exact Or.inr (Or.inl h.symm)
      · exact Or.inr (Or.inr h.symm)
  · exact ⟨fun _ => Or.inl hlen, fun _ => Or.inl hlen⟩

/-- On a string that splits into two non-empty tokens `Money.Scan` is the currency decode of
the first token into the scratch Currency, then the amount decode of the second token into
the scratch Amount, each failure wrapped with its token. -/
theorem moneyScan_two_tokens {μ : Type} [Inhabited μ] (GetCurrency : Registry μ)
    (m : Money μ) (x t0 t1 : String) (hsplit : Split x = [t0, t1])
    (h0 : t0 ≠ "") (h1 : t1 ≠ "") :
    Money.Scan GetCurrency m (.str x) =
      match Currency.Scan GetCurrency Currency.zero (.str t0) with
      | (_, some err) => (m, some (.moneyCurrency t0 err))
      | (currency, none) =>
        match Amount.Scan ⟨0⟩ (.str t1) with
        | (_, some err) => (m, some (.moneyAmount (.str t1) err))
        | (amount, none) => (⟨some amount, some currency⟩, none) := by
  have hguard : ¬ (0 + 1 + 1 ≠ 2 ∨ t0 = "" ∨ t1 = "") := by
    simp [h0, h1]
  simp only [Money.Scan, hsplit]
  simp only [List.length_cons, List.length_nil, List.getD_cons_zero, List.getD_cons_succ]
  rw [if_neg hguard]

/-! ## The claims -/

/-- C1. Idempotence on failure: whenever `Money.Scan`, `Amount.Scan` or `Currency.Scan`
returns an error, the target after the call equals the target before the call, for every
scalar, every registry and every prior target. -/
theorem scan_error_leaves_target {μ : Type} [Inhabited μ] (GetCurrency : Registry μ)
    (src : Scalar) :
    (∀ m : Money μ, (Money.Scan GetCurrency m src).2 ≠ none →
        (Money.Scan GetCurrency m src).1 = m) ∧
    (∀ a : Amount, (Amount.Scan a src).2 ≠ none → (Amount.Scan a src).1 = a) ∧
    (∀ c : Currency μ, (Currency.Scan GetCurrency c src).2 ≠ none →
        (Currency.Scan GetCurrency c src).1 = c) := by
  refine ⟨?_, ?_, ?_⟩
  · intro m
    cases src <;> simp only [Money.Scan, Amount.Scan] <;> try (intro _; trivial)
    · split
      · intro _; trivial
      · split
        · intro _; trivial
        · split
          · intro _; trivial
          · intro h; exact absurd rfl h
  · intro a
    cases src <;> simp only [Amount.Scan] <;> try (intro _; trivial)
    · split
      · intro _; trivial
      · intro h; exact absurd rfl h
  · intro c
    cases src <;> simp only [Currency.Scan] <;> try (intro _; trivial)
    split
    · intro _; trivial
    · intro h; exact absurd rfl h

/-- Witness of C1: scanning `"XXX 100"` (unknown code), `"12a"` and `"XXX"` fails and leaves
the sample targets as they were. -/
theorem scan_error_leaves_target_witness :
    ((Money.Scan sampleRegistry sampleMoney (.str "XXX 100")).2 ≠ none ∧
      (Money.Scan sampleRegistry sampleMoney (.str "XXX 100")).1 = sampleMoney) ∧
    ((Amount.Scan ⟨7⟩ (.str "12a")).2 ≠ none ∧ (Amount.Scan ⟨7⟩ (.str "12a")).1 = ⟨7⟩) ∧
    ((Currency.Scan sampleRegistry ⟨"EUR", 2⟩ (.str "XXX")).2 ≠ none ∧
      (Currency.Scan sampleRegistry ⟨"EUR", 2⟩ (.str "XXX")).1 = ⟨"EUR", 2⟩) :=
  ⟨⟨by decide,
     (scan_error_leaves_target sampleRegistry (.str "XXX 100")).1 sampleMoney (by decide)⟩,
   ⟨by decide, (scan_error_leaves_target sampleRegistry (.str "12a")).2.1 ⟨7⟩ (by decide)⟩,
   ⟨by decide,
     (scan_error_leaves_target sampleRegistry (.str "XXX")).2.2 ⟨"EUR", 2⟩ (by decide)⟩⟩

/-- C2. Round trip (Amount): for every integer `v` (so for every 64-bit `v`) and every prior
target `a`, `Amount.Value` of an Amount holding `v` returns a scalar and no error, and
`Amount.Scan` of that scalar returns no error and leaves the target holding exactly `v`. -/
theorem amount_round_trip (v : Int) (a : Amount) :
    (Amount.Value ⟨v⟩).2 = none ∧
    Amount.Scan a (Amount.Value ⟨v⟩).1 = (⟨v⟩, none) := by
  exact ⟨rfl, rfl⟩

/-- C3. Two-part string decode: when `strings.Split(s, " ")` is exactly `[t1, t2]` with both
tokens non-empty, `Money.Scan(s)` succeeds iff `Currency.Scan(t1)` and `Amount.Scan(t2)` both
succeed (into any targets), and on success the Money holds the Currency that
`Currency.Scan(t1)` produced and the Amount that `Amount.Scan(t2)` produced. -/
theorem money_scan_two_parts {μ : Type} [Inhabited μ] (GetCurrency : Registry μ)
    (m : Money μ) (c0 : Currency μ) (a0 : Amount) (s t1 t2 : String)
    (hsplit : Split s = [t1, t2]) (h1 : t1 ≠ "") (h2 : t2 ≠ "") :
    ((Money.Scan GetCurrency m (.str s)).2 = none ↔
      ((Currency.Scan GetCurrency c0 (.str t1)).2 = none ∧
        (Amount.Scan a0 (.str t2)).2 = none)) ∧
    ((Money.Scan GetCurrency m (.str s)).2 = none →
      (Money.Scan GetCurrency m (.str s)).1 =
        ⟨some (Amount.Scan a0 (.str t2)).1, some (Currency.Scan GetCurrency c0 (.str t1)).1⟩) := by
  simp only [Money.Scan, hsplit, Currency.Scan, Amount.Scan]
  simp only [List.length_cons, List.length_nil, List.getD_cons_zero, List.getD_cons_succ]
  have hguard : ¬ (0 + 1 + 1 ≠ 2 ∨ t1 = "" ∨ t2 = "") := by
    simp [h1, h2]
  rw [if_neg hguard]
  cases hreg : GetCurrency t1 with
  | none => simp
  | some cur =>
    rcases hp : ParseInt t2 with ⟨i, _ | e⟩
    · simp
    · simp

/-- Witness of C3: `"USD 100"` splits into `"USD"` and `"100"` and decodes to
`Money{Currency: USD, Amount: 100}` under the sample registry. -/
theorem money_scan_two_parts_witness :
    Split "USD 100" = ["USD", "100"] ∧
    Money.Scan sampleRegistry sampleMoney (.str "USD 100") =
      (⟨some ⟨100⟩, some ⟨"USD", 2⟩⟩, none) ∧
    (((Money.Scan sampleRegistry sampleMoney (.str "USD 100")).2 = none ↔
      ((Currency.Scan sampleRegistry ⟨"EUR", 2⟩ (.str "USD")).2 = none ∧
        (Amount.Scan ⟨7⟩ (.str "100")).2 = none)) ∧
    ((Money.Scan sampleRegistry sampleMoney (.str "USD 100")).2 = none →
      (Money.Scan sampleRegistry sampleMoney (.str "USD 100")).1 =
        ⟨some (Amount.Scan ⟨7⟩ (.str "100")).1,
          some (Currency.Scan sampleRegistry ⟨"EUR", 2⟩ (.str "USD")).1⟩)) :=
  ⟨by decide, by decide,
    money_scan_two_parts sampleRegistry sampleMoney ⟨"EUR", 2⟩ ⟨7⟩ "USD 100" "USD" "100"
      (by decide) (by decide) (by decide)⟩

/-- C4. Strict two-token rule: when `strings.Split(s, " ")` does not have exactly two parts,
or one of its parts is empty, `Money.Scan(s)` returns the error of line 22 (malformed Money
scalar) carrying `s` and leaves the target alone; the result is the same for every registry,
so neither the currency lookup nor the amount parser has a say in it. -/
theorem money_scan_malformed {μ : Type} [Inhabited μ] (s : String)
    (hbad : (Split s).length ≠ 2 ∨ "" ∈ Split s) (GetCurrency : Registry μ) (m : Money μ) :
    Money.Scan GetCurrency m (.str s) = (m, some (.moneyMalformed s)) := by
  simp only [Money.Scan]
  rw [if_pos]
  rcases hbad with hlen | hmem
  · exact Or.inl hlen
  · by_cases hlen : (Split s).length = 2
    · right
      match hs : Split s, hlen with
      | [p0, p1], _ =>
        rw [hs] at hmem
        simp only [List.mem_cons, List.mem_singleton, List.mem_nil_iff, or_false] at hmem
        simp only [List.getD_cons_zero, List.getD_cons_succ]
        rcases hmem with h | h
        · exact Or.inl h.symm
        · exact Or.inr h.symm
    · exact Or.inl hlen

/-- Witness of C4: `"USD"`, `"USD 100 extra"`, `"USD  100"`, `" 100"`, `"USD "` and `""` are
all rejected as malformed, although the sample registry knows USD. -/
theorem money_scan_malformed_witness :
    Money.Scan sampleRegistry sampleMoney (.str "USD") =
      (sampleMoney, some (.moneyMalformed "USD")) ∧
    Money.Scan sampleRegistry sampleMoney (.str "USD 100 extra") =
      (sampleMoney, some (.moneyMalformed "USD 100 extra")) ∧
    Money.Scan sampleRegistry sampleMoney (.str "USD  100") =
      (sampleMoney, some (.moneyMalformed "USD  100")) ∧
    Money.Scan sampleRegistry sampleMoney (.str " 100") =
      (sampleMoney, some (.moneyMalformed " 100")) ∧
    Money.Scan sampleRegistry sampleMoney (.str "USD ") =
      (sampleMoney, some (.moneyMalformed "USD ")) ∧
    Money.Scan sampleRegistry sampleMoney (.str "") =
      (sampleMoney, some (.moneyMalformed "")) :=
  ⟨money_scan_malformed "USD" (by decide) sampleRegistry sampleMoney,
   money_scan_malformed "USD 100 extra" (by decide) sampleRegistry sampleMoney,
   money_scan_malformed "USD  100" (by decide) sampleRegistry sampleMoney,
   money_scan_malformed " 100" (by decide) sampleRegistry sampleMoney,
   money_scan_malformed "USD " (by decide) sampleRegistry sampleMoney,
   money_scan_malformed "" (by decide) sampleRegistry sampleMoney⟩

/-- C5. Integer passthrough: `Money.Scan(int64(v))` succeeds for every `v` and yields a
Money whose Amount is `v` and whose Currency is the zero value `Currency{}` (nothing is
looked up in the registry); and for every 32-bit `w`, `Money.Scan(int32(w))` returns exactly
what `Money.Scan(int64(w))` returns. -/
theorem money_scan_integer {μ : Type} [Inhabited μ] (GetCurrency : Registry μ)
    (m : Money μ) :
    (∀ v : Int, Money.Scan GetCurrency m (.int64 v) =
        (⟨some ⟨v⟩, some Currency.zero⟩, none)) ∧
    (∀ w : Int, fitsInt 32 w →
        Money.Scan GetCurrency m (.int32 w) = Money.Scan GetCurrency m (.int64 w)) := by
  refine ⟨fun v => rfl, fun w hw => ?_⟩
  have h64 : toInt64 w = w := toInt64_of_fits w (fitsInt_mono w (by norm_num) hw)
  simp only [Money.Scan, Amount.Scan, h64]

/-- Witness of C5: `int64(500)` and `int32(500)` both decode to Amount 500 with the zero
Currency. -/
theorem money_scan_integer_witness :
    Money.Scan sampleRegistry sampleMoney (.int64 500) = (⟨some ⟨500⟩, some ⟨"", 0⟩⟩, none) ∧
    fitsInt 32 500 ∧
    Money.Scan sampleRegistry sampleMoney (.int32 500) =
      Money.Scan sampleRegistry sampleMoney (.int64 500) :=
  ⟨(money_scan_integer sampleRegistry sampleMoney).1 500, by decide,
   (money_scan_integer sampleRegistry sampleMoney).2 500 (by decide)⟩

/-- C6. Unknown currency: for non-empty, space-free tokens `c` and `n` with
`GetCurrency(c) == nil`, `Money.Scan(c + " " + n)` returns the error of line 25 (currency
sub-field, carrying `c`) wrapping the error of line 96 (lookup returned nil), whatever `n`
is, and the target keeps its previous Amount and Currency. -/
theorem money_scan_unknown_currency {μ : Type} [Inhabited μ] (GetCurrency : Registry μ)
    (m : Money μ) (c n : String) (hc : c ≠ "") (hn : n ≠ "")
    (hcs : ' ' ∉ c.data) (hns : ' ' ∉ n.data) (hnil : GetCurrency c = none) :
    Money.Scan GetCurrency m (.str (c ++ " " ++ n)) =
      (m, some (.moneyCurrency c (.currencyNil c))) := by
  simp only [Money.Scan, Split_two_tokens c n hcs hns, Currency.Scan]
  simp only [List.length_cons, List.length_nil, List.getD_cons_zero, List.getD_cons_succ]
  have hguard : ¬ (0 + 1 + 1 ≠ 2 ∨ c = "" ∨ n = "") := by
    simp [hc, hn]
  rw [if_neg hguard]
  simp only [hnil]

/-- Witness of C6: `"XXX 100"` and `"XXX 12a"`, with `XXX` not in the sample registry. -/
theorem money_scan_unknown_currency_witness :
    sampleRegistry "XXX" = none ∧
    Money.Scan sampleRegistry sampleMoney (.str ("XXX" ++ " " ++ "100")) =
      (sampleMoney, some (.moneyCurrency "XXX" (.currencyNil "XXX"))) ∧
    Money.Scan sampleRegistry sampleMoney (.str ("XXX" ++ " " ++ "12a")) =
      (sampleMoney, some (.moneyCurrency "XXX" (.currencyNil "XXX"))) :=
  ⟨by decide,
   money_scan_unknown_currency sampleRegistry sampleMoney "XXX" "100"
     (by decide) (by decide) (by decide) (by decide) (by decide),
   money_scan_unknown_currency sampleRegistry sampleMoney "XXX" "12a"
     (by decide) (by decide) (by decide) (by decide) (by decide)⟩

/-- C7. Currency decode is the registry lookup: `Currency.Scan(s)` succeeds iff
`GetCurrency(s)` is not nil; on success the target is the registry entry for `s`, field for
field; and when `GetCurrency(s)` is nil it returns the error of line 96 (unknown currency)
carrying `s`, the target unchanged. -/
theorem currency_scan_is_lookup {μ : Type} (GetCurrency : Registry μ) (c : Currency μ)
    (s : String) :
    ((Currency.Scan GetCurrency c (.str s)).2 = none ↔ GetCurrency s ≠ none) ∧
    (∀ cur, GetCurrency s = some cur → Currency.Scan GetCurrency c (.str s) = (cur, none)) ∧
    (GetCurrency s = none →
      Currency.Scan GetCurrency c (.str s) = (c, some (.currencyNil s))) := by
  simp only [Currency.Scan]
  cases h : GetCurrency s <;> simp

/-- Witness of C7: `"USD"` resolves to the registry entry, `"XXX"` and `""` do not resolve. -/
theorem currency_scan_is_lookup_witness :
    Currency.Scan sampleRegistry ⟨"EUR", 2⟩ (.str "USD") = (⟨"USD", 2⟩, none) ∧
    Currency.Scan sampleRegistry ⟨"EUR", 2⟩ (.str "XXX") =
      (⟨"EUR", 2⟩, some (.currencyNil "XXX")) ∧
    Currency.Scan sampleRegistry ⟨"EUR", 2⟩ (.str "") =
      (⟨"EUR", 2⟩, some (.currencyNil "")) :=
  ⟨(currency_scan_is_lookup sampleRegistry ⟨"EUR", 2⟩ "USD").2.1 ⟨"USD", 2⟩ (by decide),
   (currency_scan_is_lookup sampleRegistry ⟨"EUR", 2⟩ "XXX").2.2 (by decide),
   (currency_scan_is_lookup sampleRegistry ⟨"EUR", 2⟩ "").2.2 (by decide)⟩

/-- C8. Amount string parse: `Amount.Scan(s)` succeeds with value `v` iff `s` is a base-10
signed integer literal (an optional single leading `+` or `-`, then one or more ASCII digits,
nothing else) whose value is `v` and lies in `[-2^63, 2^63-1]`; for every other string it
returns the error of line 59 (invalid amount format) carrying `s` and the `ParseInt` error,
the target unchanged. -/
theorem amount_scan_string (a : Amount) (s : String) :
    (∀ v : Int, Amount.Scan a (.str s) = (⟨v⟩, none) ↔
      (decimalLiteral s = some v ∧ fitsInt 64 v)) ∧
    ((¬ ∃ v : Int, decimalLiteral s = some v ∧ fitsInt 64 v) →
      ∃ cause, Amount.Scan a (.str s) = (a, some (.amountParse s ⟨"ParseInt", s, cause⟩))) := by
  rcases ParseInt_spec s with ⟨v0, hlit, hfit, hP⟩ | ⟨hno, i, cause, hP⟩
  · have hscan : Amount.Scan a (.str s) = (⟨v0⟩, none) := by
      simp only [Amount.Scan, hP]
    refine ⟨fun v => ?_, fun hnone => absurd ⟨v0, hlit, hfit⟩ hnone⟩
    rw [hscan, hlit]
    constructor
    · intro h
      have hv : v0 = v := by
        have := congrArg (fun r => r.1.val) h
        exact this
      exact ⟨by rw [hv], hv ▸ hfit⟩
    · rintro ⟨h, _⟩
      rw [Option.some.inj h]
  · have hscan : Amount.Scan a (.str s) =
        (a, some (.amountParse s ⟨"ParseInt", s, cause⟩)) := by
      simp only [Amount.Scan, hP]
    refine ⟨fun v => ?_, fun _ => ⟨cause, hscan⟩⟩
    rw [hscan]
    constructor
    · intro h
      have := congrArg (fun r => r.2) h
      cases this
    · rintro ⟨h, hf⟩
      exact absurd hf (hno v h)

/-- Witness of C8: `"123"` gives 123 and `"-9223372036854775808"` gives `-2^63`; `"12a"`,
`""`, `" 1"` and `"9223372036854775808"` fail with the error of line 59. -/
theorem amount_scan_string_witness :
    Amount.Scan ⟨7⟩ (.str "123") = (⟨123⟩, none) ∧
    Amount.Scan ⟨7⟩ (.str "-9223372036854775808") = (⟨-9223372036854775808⟩, none) ∧
    (∃ cause, Amount.Scan ⟨7⟩ (.str "12a") =
      (⟨7⟩, some (.amountParse "12a" ⟨"ParseInt", "12a", cause⟩))) ∧
    (∃ cause, Amount.Scan ⟨7⟩ (.str "") =
      (⟨7⟩, some (.amountParse "" ⟨"ParseInt", "", cause⟩))) ∧
    (∃ cause, Amount.Scan ⟨7⟩ (.str " 1") =
      (⟨7⟩, some (.amountParse " 1" ⟨"ParseInt", " 1", cause⟩))) ∧
    (∃ cause, Amount.Scan ⟨7⟩ (.str "9223372036854775808") =
      (⟨7⟩, some (.amountParse "9223372036854775808"
        ⟨"ParseInt", "9223372036854775808", cause⟩))) :=
  ⟨((amount_scan_string ⟨7⟩ "123").1 123).2 (by decide),
   ((amount_scan_string ⟨7⟩ "-9223372036854775808").1 (-9223372036854775808)).2 (by decide),
   (amount_scan_string ⟨7⟩ "12a").2 (by decide),
   (amount_scan_string ⟨7⟩ "").2 (by decide),
   (amount_scan_string ⟨7⟩ " 1").2 (by decide),
   (amount_scan_string ⟨7⟩ "9223372036854775808").2 (by decide)⟩

/-- C9, as stated, fails: an 8-bit scalar `int8(5)` and a 16-bit scalar `int16(-300)` are
in range and are rejected by `Amount.Scan` with the unsupported-type error of line 70. -/
theorem amount_scan_rejects_int8_int16 :
    (fitsInt 8 5 ∧ Amount.Scan ⟨7⟩ (.int8 5) = (⟨7⟩, some (.amountUnsupported "int8"))) ∧
    (fitsInt 16 (-300) ∧
      Amount.Scan ⟨7⟩ (.int16 (-300)) = (⟨7⟩, some (.amountUnsupported "int16"))) := by
  decide

/-- C9, amended. `Amount.Scan` accepts the integer kinds `int64`, `int32` and `int`: for a
value `v` within the width of its type the call succeeds and the target holds `v`, sign
included.  The kinds `int8` and `int16` have no case: they get the unsupported-type error of
line 70 and the target is unchanged. -/
theorem amount_scan_integer_kinds (a : Amount) (v : Int) :
    Amount.Scan a (.int64 v) = (⟨v⟩, none) ∧
    (fitsInt 32 v → Amount.Scan a (.int32 v) = (⟨v⟩, none)) ∧
    (fitsInt 64 v → Amount.Scan a (.int v) = (⟨v⟩, none)) ∧
    Amount.Scan a (.int16 v) = (a, some (.amountUnsupported "int16")) ∧
    Amount.Scan a (.int8 v) = (a, some (.amountUnsupported "int8")) := by
  refine ⟨rfl, fun h => ?_, fun h => ?_, rfl, rfl⟩
  · simp only [Amount.Scan, toInt64_of_fits v (fitsInt_mono v (by norm_num) h)]
  · simp only [Amount.Scan, toInt64_of_fits v h]

/-- Witness of C9, amended, at the negative value `-5`. -/
theorem amount_scan_integer_kinds_witness :
    Amount.Scan ⟨7⟩ (.int64 (-5)) = (⟨-5⟩, none) ∧
    (fitsInt 32 (-5) ∧ Amount.Scan ⟨7⟩ (.int32 (-5)) = (⟨-5⟩, none)) ∧
    (fitsInt 64 (-5) ∧ Amount.Scan ⟨7⟩ (.int (-5)) = (⟨-5⟩, none)) ∧
    Amount.Scan ⟨7⟩ (.int16 (-5)) = (⟨7⟩, some (.amountUnsupported "int16")) ∧
    Amount.Scan ⟨7⟩ (.int8 (-5)) = (⟨7⟩, some (.amountUnsupported "int8")) :=
  ⟨(amount_scan_integer_kinds ⟨7⟩ (-5)).1,
   ⟨by decide, (amount_scan_integer_kinds ⟨7⟩ (-5)).2.1 (by decide)⟩,
   ⟨by decide, (amount_scan_integer_kinds ⟨7⟩ (-5)).2.2.1 (by decide)⟩,
   (amount_scan_integer_kinds ⟨7⟩ (-5)).2.2.2.1,
   (amount_scan_integer_kinds ⟨7⟩ (-5)).2.2.2.2⟩

/-- C10, the code at the failing input: `Amount.Scan` accepts the platform-width `int(5)`,
while `Money.Scan` of any `int` scalar falls to the default case, returns the error of
line 35 (`don't know how to scan int into Money`) and leaves the target alone. -/
theorem money_scan_rejects_int {μ : Type} [Inhabited μ] (GetCurrency : Registry μ)
    (m : Money μ) (v : Int) :
    Amount.Scan ⟨7⟩ (.int 5) = (⟨5⟩, none) ∧
    Money.Scan GetCurrency m (.int v) = (m, some (.moneyUnsupported "int")) := by
  exact ⟨by decide, rfl⟩

/-- C11. Type rejection: on every floating-point scalar and every boolean scalar,
`Amount.Scan`, `Currency.Scan` and `Money.Scan` each take the default case of their type
switch and return their unsupported-type error (lines 70, 92 and 35), which names the Go type
of the scalar; the registry has no say and the target is unchanged. -/
theorem scan_rejects_float_and_bool {μ : Type} [Inhabited μ] (GetCurrency : Registry μ)
    (m : Money μ) (a : Amount) (c : Currency μ) (bits : Nat) (b : Bool) :
    Amount.Scan a (.float64 bits) = (a, some (.amountUnsupported "float64")) ∧
    Amount.Scan a (.bool b) = (a, some (.amountUnsupported "bool")) ∧
    Currency.Scan GetCurrency c (.float64 bits) = (c, some (.currencyUnsupported "float64")) ∧
    Currency.Scan GetCurrency c (.bool b) = (c, some (.currencyUnsupported "bool")) ∧
    Money.Scan GetCurrency m (.float64 bits) = (m, some (.moneyUnsupported "float64")) ∧
    Money.Scan GetCurrency m (.bool b) = (m, some (.moneyUnsupported "bool")) := by
  exact ⟨rfl, rfl, rfl, rfl, rfl, rfl⟩

/-- C12. Round trip (Currency): under a registry keyed by code, for every code string `c`
that the registry resolves, decoding `c` succeeds, and decoding the scalar that
`Currency.Value` encodes from the result succeeds again (into any target) and yields the
Currency that decoding `c` yields: `Decode(Encode(Decode(c))) == Decode(c)`. -/
theorem currency_round_trip {μ : Type} (GetCurrency : Registry μ)
    (hkey : keyedByCode GetCurrency) (t t' : Currency μ) (c : String)
    (hc : GetCurrency c ≠ none) :
    (Currency.Scan GetCurrency t (.str c)).2 = none ∧
    Currency.Scan GetCurrency t' (Currency.Value (Currency.Scan GetCurrency t (.str c)).1).1 =
      ((Currency.Scan GetCurrency t (.str c)).1, none) := by
  obtain ⟨cur, hcur⟩ := Option.ne_none_iff_exists'.mp hc
  have h1 : Currency.Scan GetCurrency t (.str c) = (cur, none) := by
    simp only [Currency.Scan, hcur]
  have hself : GetCurrency cur.Code = some cur := by
    rw [hkey c cur hcur]; exact hcur
  rw [h1]
  refine ⟨rfl, ?_⟩
  simp only [Currency.Value, Currency.Scan, hself]

/-- Witness of C12: the sample registry is keyed by code, and `"USD"` decoded into one
target, encoded, and decoded into another target gives the USD entry both times. -/
theorem currency_round_trip_witness :
    keyedByCode sampleRegistry ∧ sampleRegistry "USD" ≠ none ∧
    Currency.Scan sampleRegistry ⟨"EUR", 2⟩ (.str "USD") = (⟨"USD", 2⟩, none) ∧
    ((Currency.Scan sampleRegistry ⟨"EUR", 2⟩ (.str "USD")).2 = none ∧
      Currency.Scan sampleRegistry ⟨"JPY", 0⟩
          (Currency.Value (Currency.Scan sampleRegistry ⟨"EUR", 2⟩ (.str "USD")).1).1 =
        ((Currency.Scan sampleRegistry ⟨"EUR", 2⟩ (.str "USD")).1, none)) :=
  have hkey : keyedByCode sampleRegistry := by
    intro k cur h
    unfold sampleRegistry at h
    split_ifs at h with h1 h2 h3 <;> cases h <;> simp_all
  ⟨hkey, by decide, by decide,
    currency_round_trip sampleRegistry hkey ⟨"EUR", 2⟩ ⟨"JPY", 0⟩ "USD" (by decide)⟩

/-- C13. Overwrite, not merge: when `Money.Scan`, `Amount.Scan` or `Currency.Scan` succeeds
on a scalar from one prior target, it returns the very same result from every other prior
target: the new value is built from the scalar (and the registry) alone, both fields of a
Money are replaced, and nothing of the previous amount is kept. -/
theorem scan_success_overwrites {μ : Type} [Inhabited μ] (GetCurrency : Registry μ)
    (src : Scalar) :
    (∀ m m' : Money μ, (Money.Scan GetCurrency m src).2 = none →
        Money.Scan GetCurrency m' src = Money.Scan GetCurrency m src) ∧
    (∀ a a' : Amount, (Amount.Scan a src).2 = none → Amount.Scan a' src = Amount.Scan a src) ∧
    (∀ c c' : Currency μ, (Currency.Scan GetCurrency c src).2 = none →
        Currency.Scan GetCurrency c' src = Currency.Scan GetCurrency c src) := by
  refine ⟨?_, ?_, ?_⟩
  · intro m m'
    cases src <;> simp only [Money.Scan, Amount.Scan] <;> try (intro h; first | trivial | rfl | cases h)
    split
    · intro h; cases h
    · split
      · intro h; cases h
      · split
        · intro h; cases h
        · intro _; rfl
  · intro a a'
    cases src <;> simp only [Amount.Scan] <;> try (intro h; first | trivial | rfl | cases h)
    split
    · intro h; cases h
    · intro _; rfl
  · intro c c'
    cases src <;> simp only [Currency.Scan] <;> try (intro h; first | trivial | rfl | cases h)
    split
    · intro h; cases h
    · intro _; rfl

/-- Witness of C13: `"USD 100"`, `"123"` and `"USD"` decode to the same value from two
different prior targets. -/
theorem scan_success_overwrites_witness :
    Money.Scan sampleRegistry ⟨none, none⟩ (.str "USD 100") =
      Money.Scan sampleRegistry sampleMoney (.str "USD 100") ∧
    Amount.Scan ⟨40⟩ (.str "123") = Amount.Scan ⟨7⟩ (.str "123") ∧
    Currency.Scan sampleRegistry ⟨"JPY", 0⟩ (.str "USD") =
      Currency.Scan sampleRegistry ⟨"EUR", 2⟩ (.str "USD") :=
  ⟨(scan_success_overwrites sampleRegistry (.str "USD 100")).1 sampleMoney ⟨none, none⟩
     (by decide),
   (scan_success_overwrites sampleRegistry (.str "123")).2.1 ⟨7⟩ ⟨40⟩ (by decide),
   (scan_success_overwrites sampleRegistry (.str "USD")).2.2 ⟨"EUR", 2⟩ ⟨"JPY", 0⟩
     (by decide)⟩

/-- C14. Decoded-Money invariant: whenever `Money.Scan` succeeds, on the two-part string path
or on the bare integer path, the resulting Money has a non-nil amount pointer and a non-nil
currency pointer, whatever the prior target was. -/
theorem money_scan_success_non_nil {μ : Type} [Inhabited μ] (GetCurrency : Registry μ)
    (m : Money μ) (src : Scalar) (hok : (Money.Scan GetCurrency m src).2 = none) :
    (Money.Scan GetCurrency m src).1.amount ≠ none ∧
    (Money.Scan GetCurrency m src).1.currency ≠ none := by
  revert hok
  cases src <;> simp only [Money.Scan, Amount.Scan] <;>
    try (intro h; first | exact ⟨Option.some_ne_none _, Option.some_ne_none _⟩ | cases h)
  split
  · intro h; cases h
  · split
    · intro h; cases h
    · split
      · intro h; cases h
      · intro _; exact ⟨Option.some_ne_none _, Option.some_ne_none _⟩

/-- Witness of C14: from a target with both pointers nil, `"USD 100"` and `int64(500)` both
decode to a Money with both pointers set. -/
theorem money_scan_success_non_nil_witness :
    ((Money.Scan sampleRegistry ⟨none, none⟩ (.str "USD 100")).1.amount ≠ none ∧
      (Money.Scan sampleRegistry ⟨none, none⟩ (.str "USD 100")).1.currency ≠ none) ∧
    ((Money.Scan sampleRegistry ⟨none, none⟩ (.int64 500)).1.amount ≠ none ∧
      (Money.Scan sampleRegistry ⟨none, none⟩ (.int64 500)).1.currency ≠ none) :=
  ⟨money_scan_success_non_nil sampleRegistry ⟨none, none⟩ (.str "USD 100") (by decide),
   money_scan_success_non_nil sampleRegistry ⟨none, none⟩ (.int64 500) (by decide)⟩

/-- C15. Encode always succeeds: `Amount.Value` returns the raw integer the Amount holds as an
`int64` scalar with a nil error, and `Currency.Value` returns the code string of the Currency
with a nil error, the empty code of the zero Currency included; nothing is validated or
formatted. -/
theorem value_always_succeeds {μ : Type} [Inhabited μ] (a : Amount) (c : Currency μ) :
    Amount.Value a = (.int64 a.val, none) ∧
    Currency.Value c = (.str c.Code, none) ∧
    Currency.Value (Currency.zero : Currency μ) = (.str "", none) := by
  exact ⟨rfl, rfl, rfl⟩

/-- C16, as stated, fails: `Money.Scan` and `Amount.Scan` return one and the same error for
the booleans `true` and `false`; its message names the type `bool` and mentions neither
value. -/
theorem unsupported_kind_message_omits_value :
    Money.Scan sampleRegistry sampleMoney (.bool true) =
      (sampleMoney, some (.moneyUnsupported "bool")) ∧
    Money.Scan sampleRegistry sampleMoney (.bool false) =
      (sampleMoney, some (.moneyUnsupported "bool")) ∧
    ScanError.Error sampleSharpV (.moneyUnsupported "bool") =
      "don't know how to scan bool into Money" ∧
    ¬ mentions (ScanError.Error sampleSharpV (.moneyUnsupported "bool")) "true" ∧
    ¬ mentions (ScanError.Error sampleSharpV (.moneyUnsupported "bool")) "false" ∧
    Amount.Scan ⟨7⟩ (.bool true) = (⟨7⟩, some (.amountUnsupported "bool")) ∧
    Amount.Scan ⟨7⟩ (.bool false) = (⟨7⟩, some (.amountUnsupported "bool")) ∧
    ScanError.Error sampleSharpV (.amountUnsupported "bool") =
      "bool is not a supported type for an Amount" := by
  decide

/-- C16, amended. When a `Scan` fails on a string scalar, the message mentions the `%#v`
rendering of the offending string: for `Amount.Scan` the string that `ParseInt` rejected
(error of line 59), for `Currency.Scan` the string the registry does not resolve (line 96),
for a Money string that is not two non-empty tokens the whole string (line 22); for a Money
string of two tokens, the first token together with the message of `Currency.Scan` when the
currency decode fails (line 25), and otherwise the second token together with the message of
`Amount.Scan` when the amount decode fails (line 28).  When a `Scan` fails on a scalar of any
other kind, the error is the unsupported-type one and its message is the fixed text with the
Go type name of the scalar, whatever its value. -/
theorem scan_error_message {μ : Type} [Inhabited μ] (GetCurrency : Registry μ)
    (sharpV : Scalar → String) (src : Scalar) (e : ScanError) :
    (∀ a : Amount, (Amount.Scan a src).2 = some e →
      (∀ x, src = .str x →
        ∃ err, (ParseInt x).2 = some err ∧ e = .amountParse x err ∧
          mentions (e.Error sharpV) (sharpV (.str x))) ∧
      ((∀ x, src ≠ .str x) →
        e = .amountUnsupported src.typeName ∧
        e.Error sharpV = src.typeName ++ " is not a supported type for an Amount")) ∧
    (∀ c : Currency μ, (Currency.Scan GetCurrency c src).2 = some e →
      (∀ x, src = .str x →
        GetCurrency x = none ∧ e = .currencyNil x ∧
          mentions (e.Error sharpV) (sharpV (.str x))) ∧
      ((∀ x, src ≠ .str x) →
        e = .currencyUnsupported src.typeName ∧
        e.Error sharpV = src.typeName ++
          " is not a supported type for a Currency (store the Currency.Code value as a string only)")) ∧
    (∀ m : Money μ, (Money.Scan GetCurrency m src).2 = some e →
      (∀ x, src = .str x →
        (((Split x).length ≠ 2 ∨ "" ∈ Split x) ∧ e = .moneyMalformed x ∧
          mentions (e.Error sharpV) (sharpV (.str x))) ∨
        (∃ t0 t1 inner, Split x = [t0, t1] ∧
          (Currency.Scan GetCurrency Currency.zero (.str t0)).2 = some inner ∧
          e = .moneyCurrency t0 inner ∧
          mentions (e.Error sharpV) (sharpV (.str t0)) ∧
          mentions (e.Error sharpV) (inner.Error sharpV)) ∨
        (∃ t0 t1 inner, Split x = [t0, t1] ∧
          (Currency.Scan GetCurrency Currency.zero (.str t0)).2 = none ∧
          (Amount.Scan ⟨0⟩ (.str t1)).2 = some inner ∧
          e = .moneyAmount (.str t1) inner ∧
          mentions (e.Error sharpV) (sharpV (.str t1)) ∧
          mentions (e.Error sharpV) (inner.Error sharpV))) ∧
      ((∀ x, src ≠ .str x) →
        e = .moneyUnsupported src.typeName ∧
        e.Error sharpV = "don't know how to scan " ++ src.typeName ++ " into Money")) := by
  refine ⟨?_, ?_, ?_⟩
  · intro a
    cases src <;> simp only [Amount.Scan] <;>
      try (first
        | (intro h; cases h; done)
        | (intro h; cases h; exact ⟨fun x hx => (by cases hx), fun _ => ⟨rfl, rfl⟩⟩))
    rename_i x
    split
    · rename_i err hP
      intro h
      cases Option.some.inj h
      refine ⟨fun y hy => ?_, fun hne => absurd rfl (hne x)⟩
      cases hy
      refine ⟨err, by rw [hP], rfl, ?_⟩
      exact mentions_of_data _ _ "failed to parse ".data (" as int: " ++ err.Error sharpV).data
        (by simp [ScanError.Error, String.data_append])
    · intro h; cases h
  · intro c
    cases src <;> simp only [Currency.Scan] <;>
      try (first
        | (intro h; cases h; done)
        | (intro h; cases h; exact ⟨fun x hx => (by cases hx), fun _ => ⟨rfl, rfl⟩⟩))
    rename_i x
    split
    · rename_i hnil
      intro h
      cases Option.some.inj h
      refine ⟨fun y hy => ?_, fun hne => absurd rfl (hne x)⟩
      cases hy
      refine ⟨hnil, rfl, ?_⟩
      exact mentions_of_data _ _ "getCurrency(".data ") returned nil".data
        (by simp [ScanError.Error, String.data_append])
    · intro h; cases h
  · intro m
    cases src with
    | str x =>
      intro h
      refine ⟨fun y hy => ?_, fun hne => absurd rfl (hne x)⟩
      cases hy
      by_cases hbad : (Split x).length ≠ 2 ∨ "" ∈ Split x
      · left
        have hscan : Money.Scan GetCurrency m (.str x) = (m, some (.moneyMalformed x)) := by
          simp only [Money.Scan]
          rw [if_pos ((malformed_guard_iff _).mpr hbad)]
        rw [hscan] at h
        cases Option.some.inj h
        exact ⟨hbad, rfl, mentions_of_data _ _ [] " is not valid to scan into Money".data
          (by simp [ScanError.Error, String.data_append])⟩
      · right
        have hlen : (Split x).length = 2 := by
          by_contra hl
          exact hbad (Or.inl hl)
        obtain ⟨t0, t1, hsplit⟩ := List.length_eq_two.mp hlen
        have h0 : t0 ≠ "" := by
          intro h0
          apply hbad; right; rw [hsplit, h0]; simp
        have h1 : t1 ≠ "" := by
          intro h1
          apply hbad; right; rw [hsplit, h1]; simp
        rw [moneyScan_two_tokens GetCurrency m x t0 t1 hsplit h0 h1] at h
        rcases hcs : Currency.Scan GetCurrency Currency.zero (.str t0) with ⟨cur, _ | cerr⟩
        · rcases has : Amount.Scan ⟨0⟩ (.str t1) with ⟨amt, _ | aerr⟩
          · rw [hcs, has] at h
            cases h
          · rw [hcs, has] at h
            cases Option.some.inj h
            right
            refine ⟨t0, t1, aerr, hsplit, by rw [hcs], by rw [has], rfl, ?_, ?_⟩
            · exact mentions_of_data _ _ "scanning ".data
                (" into an Amount: " ++ aerr.Error sharpV).data
                (by simp [ScanError.Error, String.data_append])
            · exact mentions_of_data _ _
                ("scanning " ++ sharpV (.str t1) ++ " into an Amount: ").data []
                (by simp [ScanError.Error, String.data_append])
        · rw [hcs] at h
          cases Option.some.inj h
          left
          refine ⟨t0, t1, cerr, hsplit, by rw [hcs], rfl, ?_, ?_⟩
          · exact mentions_of_data _ _ "scanning ".data
              (" into a Currency: " ++ cerr.Error sharpV).data
              (by simp [ScanError.Error, String.data_append])
          · exact mentions_of_data _ _
              ("scanning " ++ sharpV (.str t0) ++ " into a Currency: ").data []
              (by simp [ScanError.Error, String.data_append])
    | int64 v => intro h; cases h
    | int32 v => intro h; cases h
    | int v => intro h; cases h; exact ⟨fun x hx => (by cases hx), fun _ => ⟨rfl, rfl⟩⟩
    | int16 v => intro h; cases h; exact ⟨fun x hx => (by cases hx), fun _ => ⟨rfl, rfl⟩⟩
    | int8 v => intro h; cases h; exact ⟨fun x hx => (by cases hx), fun _ => ⟨rfl, rfl⟩⟩
    | float64 v => intro h; cases h; exact ⟨fun x hx => (by cases hx), fun _ => ⟨rfl, rfl⟩⟩
    | bool v => intro h; cases h; exact ⟨fun x hx => (by cases hx), fun _ => ⟨rfl, rfl⟩⟩
    | bytes v => intro h; cases h; exact ⟨fun x hx => (by cases hx), fun _ => ⟨rfl, rfl⟩⟩
    | null => intro h; cases h; exact ⟨fun x hx => (by cases hx), fun _ => ⟨rfl, rfl⟩⟩

/-- Witness of C16, amended.  `"1<tab>2"` scanned into an Amount: the message mentions the
quoted string with its escape.  `"USD 12a"` scanned into a Money fails on the amount and the
message mentions the second token `"12a"` and the message of `Amount.Scan`; `"XXX 12a"`
fails on the currency and the message mentions the first token `"XXX"`.  A float scanned
into a Money: the message is the text with the type name `float64`. -/
theorem scan_error_message_witness :
    (∃ err, (ParseInt "1\t2").2 = some err ∧
      ScanError.amountParse "1\t2" ⟨"ParseInt", "1\t2", .ErrSyntax⟩ = .amountParse "1\t2" err ∧
      mentions
        (ScanError.Error sampleSharpV (.amountParse "1\t2" ⟨"ParseInt", "1\t2", .ErrSyntax⟩))
        (sampleSharpV (.str "1\t2"))) ∧
    sampleSharpV (.str "1\t2") = "\"1\\t2\"" ∧
    ScanError.Error sampleSharpV
        (.moneyAmount (.str "12a") (.amountParse "12a" ⟨"ParseInt", "12a", .ErrSyntax⟩)) =
      "scanning \"12a\" into an Amount: failed to parse \"12a\" as int: strconv.ParseInt: parsing \"12a\": invalid syntax" ∧
    mentions
      (ScanError.Error sampleSharpV
        (.moneyAmount (.str "12a") (.amountParse "12a" ⟨"ParseInt", "12a", .ErrSyntax⟩)))
      (sampleSharpV (.str "12a")) ∧
    mentions
      (ScanError.Error sampleSharpV (.moneyCurrency "XXX" (.currencyNil "XXX")))
      (sampleSharpV (.str "XXX")) ∧
    ((((Split "USD 12a").length ≠ 2 ∨ "" ∈ Split "USD 12a") ∧
        ScanError.moneyAmount (.str "12a") (.amountParse "12a" ⟨"ParseInt", "12a", .ErrSyntax⟩) =
          .moneyMalformed "USD 12a" ∧
        mentions
          (ScanError.Error sampleSharpV
            (.moneyAmount (.str "12a") (.amountParse "12a" ⟨"ParseInt", "12a", .ErrSyntax⟩)))
          (sampleSharpV (.str "USD 12a"))) ∨
      (∃ t0 t1 inner, Split "USD 12a" = [t0, t1] ∧
        (Currency.Scan sampleRegistry Currency.zero (.str t0)).2 = some inner ∧
        ScanError.moneyAmount (.str "12a") (.amountParse "12a" ⟨"ParseInt", "12a", .ErrSyntax⟩) =
          .moneyCurrency t0 inner ∧
        mentions
          (ScanError.Error sampleSharpV
            (.moneyAmount (.str "12a") (.amountParse "12a" ⟨"ParseInt", "12a", .ErrSyntax⟩)))
          (sampleSharpV (.str t0)) ∧
        mentions
          (ScanError.Error sampleSharpV
            (.moneyAmount (.str "12a") (.amountParse "12a" ⟨"ParseInt", "12a", .ErrSyntax⟩)))
          (inner.Error sampleSharpV)) ∨
      (∃ t0 t1 inner, Split "USD 12a" = [t0, t1] ∧
        (Currency.Scan sampleRegistry Currency.zero (.str t0)).2 = none ∧
        (Amount.Scan ⟨0⟩ (.str t1)).2 = some inner ∧
        ScanError.moneyAmount (.str "12a") (.amountParse "12a" ⟨"ParseInt", "12a", .ErrSyntax⟩) =
          .moneyAmount (.str t1) inner ∧
        mentions
          (ScanError.Error sampleSharpV
            (.moneyAmount (.str "12a") (.amountParse "12a" ⟨"ParseInt", "12a", .ErrSyntax⟩)))
          (sampleSharpV (.str t1)) ∧
        mentions
          (ScanError.Error sampleSharpV
            (.moneyAmount (.str "12a") (.amountParse "12a" ⟨"ParseInt", "12a", .ErrSyntax⟩)))
          (inner.Error sampleSharpV))) ∧
    ScanError.Error sampleSharpV (.moneyUnsupported "float64") =
      "don't know how to scan " ++ (Scalar.float64 0).typeName ++ " into Money" :=
  ⟨((scan_error_message sampleRegistry sampleSharpV (.str "1\t2")
        (.amountParse "1\t2" ⟨"ParseInt", "1\t2", .ErrSyntax⟩)).1 ⟨7⟩ (by decide)).1
      "1\t2" rfl,
   by decide, by decide, by decide, by decide,
   ((scan_error_message sampleRegistry sampleSharpV (.str "USD 12a")
        (.moneyAmount (.str "12a") (.amountParse "12a" ⟨"ParseInt", "12a", .ErrSyntax⟩))).2.2
      sampleMoney (by decide)).1 "USD 12a" rfl,
   (((scan_error_message sampleRegistry sampleSharpV (.float64 0)
        (.moneyUnsupported "float64")).2.2 sampleMoney (by decide)).2
      (fun x h => (by cases h))).2⟩

/-- C17. Sub-field attribution: for non-empty, space-free tokens `c` and `n` where `n` is not
a decimal literal with a 64-bit value, `Money.Scan(c + " " + n)` returns, when the registry
resolves `c`, the error of line 28 (Amount sub-field) carrying `n` and wrapping the very error
`Amount.Scan(n)` returns (line 59, with the `ParseInt` error); and when the registry does not
resolve `c`, the error of line 25 (Currency sub-field), because the currency is decoded
first.  The two errors are different, and the target is unchanged in both cases. -/
theorem money_scan_amount_attribution {μ : Type} [Inhabited μ] (GetCurrency : Registry μ)
    (m : Money μ) (a0 : Amount) (c n : String) (hc : c ≠ "") (hn : n ≠ "")
    (hcs : ' ' ∉ c.data) (hns : ' ' ∉ n.data)
    (hbad : ¬ ∃ v : Int, decimalLiteral n = some v ∧ fitsInt 64 v) :
    (GetCurrency c ≠ none →
      ∃ cause,
        (Amount.Scan a0 (.str n)).2 = some (.amountParse n ⟨"ParseInt", n, cause⟩) ∧
        Money.Scan GetCurrency m (.str (c ++ " " ++ n)) =
          (m, some (.moneyAmount (.str n) (.amountParse n ⟨"ParseInt", n, cause⟩)))) ∧
    (GetCurrency c = none →
      Money.Scan GetCurrency m (.str (c ++ " " ++ n)) =
        (m, some (.moneyCurrency c (.currencyNil c)))) ∧
    (∀ inner : ScanError,
      ScanError.moneyCurrency c (.currencyNil c) ≠ ScanError.moneyAmount (.str n) inner) := by
  have hguard : ¬ (0 + 1 + 1 ≠ 2 ∨ c = "" ∨ n = "") := by
    simp [hc, hn]
  refine ⟨fun hres => ?_, fun hnil => ?_, fun inner h => by cases h⟩
  · obtain ⟨cur, hcur⟩ := Option.ne_none_iff_exists'.mp hres
    rcases ParseInt_spec n with ⟨v0, hlit, hfit, _⟩ | ⟨_, i, cause, hP⟩
    · exact absurd ⟨v0, hlit, hfit⟩ hbad
    · refine ⟨cause, ?_, ?_⟩
      · simp only [Amount.Scan, hP]
      · simp only [Money.Scan, Split_two_tokens c n hcs hns, Currency.Scan, Amount.Scan]
        simp only [List.length_cons, List.length_nil, List.getD_cons_zero,
          List.getD_cons_succ]
        rw [if_neg hguard]
        simp only [hcur, hP]
  · simp only [Money.Scan, Split_two_tokens c n hcs hns, Currency.Scan]
    simp only [List.length_cons, List.length_nil, List.getD_cons_zero, List.getD_cons_succ]
    rw [if_neg hguard]
    simp only [hnil]

/-- Witness of C17: `"USD 12a"` fails on the Amount sub-field, `"XXX 12a"` on the Currency
sub-field. -/
theorem money_scan_amount_attribution_witness :
    (∃ cause,
      (Amount.Scan ⟨7⟩ (.str "12a")).2 =
        some (.amountParse "12a" ⟨"ParseInt", "12a", cause⟩) ∧
      Money.Scan sampleRegistry sampleMoney (.str ("USD" ++ " " ++ "12a")) =
        (sampleMoney,
          some (.moneyAmount (.str "12a") (.amountParse "12a" ⟨"ParseInt", "12a", cause⟩)))) ∧
    Money.Scan sampleRegistry sampleMoney (.str ("XXX" ++ " " ++ "12a")) =
      (sampleMoney, some (.moneyCurrency "XXX" (.currencyNil "XXX"))) :=
  ⟨(money_scan_amount_attribution sampleRegistry sampleMoney ⟨7⟩ "USD" "12a"
      (by decide) (by decide) (by decide) (by decide) (by decide)).1 (by decide),
   (money_scan_amount_attribution sampleRegistry sampleMoney ⟨7⟩ "XXX" "12a"
      (by decide) (by decide) (by decide) (by decide) (by decide)).2.1 (by decide)⟩

/-- C18. Combined-format round trip: for a Currency `cur` with a non-empty, space-free code
that the registry resolves to `cur` itself, and a 64-bit `v`, the encoded code is `cur.Code`,
the encoded amount is `int64(v)`, and `Money.Scan` of the code, one space and the base-10
rendering of `v` succeeds and yields a Money with Currency `cur` and Amount `v`. -/
theorem money_combined_round_trip {μ : Type} [Inhabited μ] (GetCurrency : Registry μ)
    (m : Money μ) (cur : Currency μ) (v : Int) (hcode : cur.Code ≠ "")
    (hspace : ' ' ∉ cur.Code.data) (hself : GetCurrency cur.Code = some cur)
    (hv : fitsInt 64 v) :
    Currency.Value cur = (.str cur.Code, none) ∧
    Amount.Value ⟨v⟩ = (.int64 v, none) ∧
    Money.Scan GetCurrency m (.str (cur.Code ++ " " ++ FormatInt v)) =
      (⟨some ⟨v⟩, some cur⟩, none) := by
  refine ⟨rfl, rfl, ?_⟩
  obtain ⟨hne, hnsp⟩ := FormatInt_token v
  have hguard : ¬ (0 + 1 + 1 ≠ 2 ∨ cur.Code = "" ∨ FormatInt v = "") := by
    simp [hcode, hne]
  simp only [Money.Scan, Split_two_tokens cur.Code (FormatInt v) hspace hnsp, Currency.Scan,
    Amount.Scan]
  simp only [List.length_cons, List.length_nil, List.getD_cons_zero, List.getD_cons_succ]
  rw [if_neg hguard]
  simp only [hself, ParseInt_FormatInt v hv]

/-- Witness of C18: USD with the amounts `-2^63` and `12345`. -/
theorem money_combined_round_trip_witness :
    Money.Scan sampleRegistry sampleMoney
        (.str ("USD" ++ " " ++ FormatInt (-9223372036854775808))) =
      (⟨some ⟨-9223372036854775808⟩, some ⟨"USD", 2⟩⟩, none) ∧
    FormatInt 12345 = "12345" ∧
    Money.Scan sampleRegistry sampleMoney (.str ("USD" ++ " " ++ FormatInt 12345)) =
      (⟨some ⟨12345⟩, some ⟨"USD", 2⟩⟩, none) :=
  ⟨(money_combined_round_trip sampleRegistry sampleMoney ⟨"USD", 2⟩ (-9223372036854775808)
      (by decide) (by decide) (by decide) (by decide)).2.2,
   by decide,
   (money_combined_round_trip sampleRegistry sampleMoney ⟨"USD", 2⟩ 12345
      (by decide) (by decide) (by decide) (by decide)).2.2⟩

/-- C19. String and integer paths of the Amount decoder agree: for every 64-bit `v`,
`Amount.Scan` of the canonical base-10 string of `v` succeeds and yields the Amount `v`,
which is also what `Amount.Scan(int64(v))` yields. -/
theorem amount_scan_string_agrees_with_int64 (a a' : Amount) (v : Int) (hv : fitsInt 64 v) :
    Amount.Scan a (.str (FormatInt v)) = (⟨v⟩, none) ∧
    Amount.Scan a (.str (FormatInt v)) = Amount.Scan a' (.int64 v) := by
  have h : Amount.Scan a (.str (FormatInt v)) = (⟨v⟩, none) := by
    simp only [Amount.Scan, ParseInt_FormatInt v hv]
  exact ⟨h, h.trans rfl⟩

/-- Witness of C19 at the two ends of the range, `-2^63` and `2^63 - 1`. -/
theorem amount_scan_string_agrees_with_int64_witness :
    (FormatInt (-9223372036854775808) = "-9223372036854775808" ∧
      Amount.Scan ⟨7⟩ (.str (FormatInt (-9223372036854775808))) =
        (⟨-9223372036854775808⟩, none) ∧
      Amount.Scan ⟨7⟩ (.str (FormatInt (-9223372036854775808))) =
        Amount.Scan ⟨40⟩ (.int64 (-9223372036854775808))) ∧
    (FormatInt 9223372036854775807 = "9223372036854775807" ∧
      Amount.Scan ⟨7⟩ (.str (FormatInt 9223372036854775807)) =
        (⟨9223372036854775807⟩, none) ∧
      Amount.Scan ⟨7⟩ (.str (FormatInt 9223372036854775807)) =
        Amount.Scan ⟨40⟩ (.int64 9223372036854775807)) :=
  ⟨⟨by decide,
     amount_scan_string_agrees_with_int64 ⟨7⟩ ⟨40⟩ (-9223372036854775808) (by decide)⟩,
   ⟨by decide,
     amount_scan_string_agrees_with_int64 ⟨7⟩ ⟨40⟩ 9223372036854775807 (by decide)⟩⟩

end GoMoney
